import Mathlib

/-!
Shallow embedding of the phishing-email triage pipeline
(`mubashir7.py`): text cleaning, URL extraction, registered-domain
resolution, keyword matching, semantic-similarity fusion and the final
verdict.  External collaborators (tldextract, the sentence-transformer
embedding plus cosine similarity, and the whitelist contents) are
passed in as explicit parameters; a `none` result of such a parameter
models the collaborator raising an exception.
-/

namespace PEA

/-- Whitespace characters: models Python's regex `\s` and `str.strip()`
over the ASCII range (the character filter in `clean_text` keeps the
pipeline within this range). -/
def isPySpace (c : Char) : Bool :=
  c = ' ' || c = '\t' || c = '\n' || c = '\r' || c = '\x0b' || c = '\x0c'

/-- The character class kept by `clean_text`'s second substitution:
`[^a-zA-Z0-9\s:/._-]` is deleted, i.e. exactly these survive. -/
def allowedChar (c : Char) : Bool :=
  c.isAlpha || c.isDigit || isPySpace c ||
    c = ':' || c = '/' || c = '.' || c = '_' || c = '-'

/-- The ASCII upper/lower case pairs used by `str.lower()` on the
character range that survives the filter. -/
def upperPairs : List (Char × Char) :=
  [('A', 'a'), ('B', 'b'), ('C', 'c'), ('D', 'd'), ('E', 'e'), ('F', 'f'),
   ('G', 'g'), ('H', 'h'), ('I', 'i'), ('J', 'j'), ('K', 'k'), ('L', 'l'),
   ('M', 'm'), ('N', 'n'), ('O', 'o'), ('P', 'p'), ('Q', 'q'), ('R', 'r'),
   ('S', 's'), ('T', 't'), ('U', 'u'), ('V', 'v'), ('W', 'w'), ('X', 'x'),
   ('Y', 'y'), ('Z', 'z')]

/-- ASCII lowercasing of one character (model of Python `str.lower()`
for the ASCII range). -/
def pyLower (c : Char) : Char :=
  ((upperPairs.find? (fun p => p.1 = c)).map Prod.snd).getD c

/-- Lowercasing of a whole string, `str.lower()`. -/
def strLower (s : String) : String :=
  String.mk (s.data.map pyLower)

/-- Scan for the end of an HTML-like tag: the first `>` in the list,
provided no newline comes before it (regex `.` does not match `\n`, so
`<.*?>` fails across a newline).  Returns the remainder after the `>`. -/
def findTagEnd : List Char → Option (List Char)
  | [] => none
  | c :: rest =>
    if c = '>' then some rest
    else if c = '\n' then none
    else findTagEnd rest

/-- `re.sub(r'<.*?>', '', text)`: repeatedly delete the leftmost,
shortest `<...>` span.  Fuel-indexed; fuel = length of the list always
suffices since every step consumes at least one character. -/
def stripTags : Nat → List Char → List Char
  | 0, l => l
  | _ + 1, [] => []
  | fuel + 1, c :: rest =>
    if c = '<' then
      match findTagEnd rest with
      | some rest2 => stripTags fuel rest2
      | none => c :: stripTags fuel rest
    else c :: stripTags fuel rest

/-- `str.strip()`: drop whitespace from both ends. -/
def pyStrip (l : List Char) : List Char :=
  (((l.dropWhile isPySpace).reverse.dropWhile isPySpace)).reverse

/-- `clean_text` (lines 43–48): empty string for non-string input
(modelled as `none`), otherwise strip tags, delete disallowed
characters, lowercase and trim. -/
def clean_text (input : Option String) : String :=
  match input with
  | none => ""
  | some s =>
    let l1 := stripTags s.data.length s.data
    let l2 := l1.filter allowedChar
    let l3 := l2.map pyLower
    String.mk (pyStrip l3)

/-- The character class `[^\s<>"']+` of `URL_REGEX`: everything except
whitespace, angle brackets and quotes. -/
def urlChar (c : Char) : Bool :=
  !(isPySpace c || c = '<' || c = '>' || c = '"' || c = '\'')

/-- Case-insensitive match of a lowercase pattern against the front of a
list; returns the remainder on success. -/
def matchCI : List Char → List Char → Option (List Char)
  | [], l => some l
  | _, [] => none
  | p :: ps, c :: cs => if pyLower c = p then matchCI ps cs else none

/-- Try the alternative `https?://[^\s<>"']+` at the current position:
first the scheme (greedy on the optional `s`), then at least one class
character.  Returns (matched text, remainder). -/
def tryHttp (l : List Char) : Option (List Char × List Char) :=
  if (matchCI "https://".data l).isSome then
    let body := (l.drop 8).takeWhile urlChar
    if body.isEmpty then none
    else some (l.take 8 ++ body, (l.drop 8).dropWhile urlChar)
  else if (matchCI "http://".data l).isSome then
    let body := (l.drop 7).takeWhile urlChar
    if body.isEmpty then none
    else some (l.take 7 ++ body, (l.drop 7).dropWhile urlChar)
  else none

/-- Try the alternative `www\.[^\s<>"']+` at the current position. -/
def tryWww (l : List Char) : Option (List Char × List Char) :=
  if (matchCI "www.".data l).isSome then
    let body := (l.drop 4).takeWhile urlChar
    if body.isEmpty then none
    else some (l.take 4 ++ body, (l.drop 4).dropWhile urlChar)
  else none

/-- One attempt of `URL_REGEX` at the current position (alternatives in
pattern order). -/
def tryUrl (l : List Char) : Option (List Char × List Char) :=
  match tryHttp l with
  | some r => some r
  | none => tryWww l

/-- `URL_REGEX.findall`: leftmost, non-overlapping matches.  Fuel =
length of the list suffices, every step consumes at least one
character. -/
def scanUrls : Nat → List Char → List (List Char)
  | 0, _ => []
  | _ + 1, [] => []
  | fuel + 1, c :: rest =>
    match tryUrl (c :: rest) with
    | some (m, rest2) => m :: scanUrls fuel rest2
    | none => scanUrls fuel rest

/-- The trailing-punctuation set of `u.rstrip('.,;!?)"\'')`. -/
def isTrailPunct (c : Char) : Bool :=
  c = '.' || c = ',' || c = ';' || c = '!' || c = '?' ||
    c = ')' || c = '"' || c = '\''

/-- `str.rstrip` over the trailing-punctuation set. -/
def rstripPunct (l : List Char) : List Char :=
  (l.reverse.dropWhile isTrailPunct).reverse

/-- `extract_urls` (lines 53–54): find all URL-regex matches, strip
trailing punctuation from each. -/
def extract_urls (s : String) : List String :=
  (scanUrls s.data.length s.data).map (fun m => String.mk (rstripPunct m))

/-- `get_registered_domain` (lines 56–63).  `tldx` models
`tldextract.extract`: `some (domain, suffix)` is a normal return,
`none` models the call raising an exception (the `except` branch). -/
def get_registered_domain (tldx : String → Option (String × String))
    (url : String) : String :=
  match tldx url with
  | none => ""
  | some (d, sfx) =>
    if d ≠ "" ∧ sfx ≠ "" then strLower (d ++ "." ++ sfx) else strLower url

/-- The fixed suspicious vocabulary (lines 36–40), in source order. -/
def SUSPICIOUS_KEYWORDS : List String :=
  ["urgent", "verify", "password", "click", "confirm", "account", "login",
   "security", "reset", "bank", "otp", "update", "alert", "access",
   "limited time", "immediately", "payment", "refund", "locked", "blocked"]

/-- The default whitelist used when no CSV/cache is present (line 33). -/
def SAFE_DEFAULT : List String := ["gmail.com", "yahoo.com", "outlook.com"]

/-- Is `n` a prefix of `h`? (character lists). -/
def leadsWith : List Char → List Char → Bool
  | [], _ => true
  | _ :: _, [] => false
  | a :: as, b :: bs => a = b && leadsWith as bs

/-- Python's substring test `n in h` on strings, as contiguous-sublist
containment of character lists. -/
def hasSub (n : List Char) : List Char → Bool
  | [] => leadsWith n []
  | c :: t => leadsWith n (c :: t) || hasSub n t

/-- The keyword pass (line 101): vocabulary entries occurring as
substrings of the cleaned text, in vocabulary order. -/
def matchKeywords (t : String) : List String :=
  SUSPICIOUS_KEYWORDS.filter (fun k => hasSub k.data t.data)

/-- Python `int()` on a (rational-modelled) float: truncation toward
zero. -/
def pyInt (q : ℚ) : ℤ := q.num.tdiv q.den

/-- Render `f"{int(q)}%"`. -/
def pct (q : ℚ) : String := toString (pyInt q) ++ "%"

/-- Round half to even, the rounding used by `format(x, '.2f')`. -/
def roundHalfEven (q : ℚ) : ℤ :=
  let f := Rat.floor q
  let frac := q - f
  if frac < 1 / 2 then f
  else if 1 / 2 < frac then f + 1
  else if f % 2 = 0 then f else f + 1

/-- Render `f"{q:.2f}"`. -/
def fmt2 (q : ℚ) : String :=
  let n := roundHalfEven (q * 100)
  let a := n.natAbs
  let sign := if n < 0 then "-" else ""
  let r := a % 100
  sign ++ toString (a / 100) ++ "." ++ (if r < 10 then "0" else "") ++ toString r

/-- Comparison text for the similarity call (line 97):
`' '.join(urls) if urls else email_text`. -/
def simInput (t : String) (urls : List String) : String :=
  if urls = [] then t else " ".intercalate urls

/-- The triple returned by `analyze_email`: label, confidence,
explanation. -/
structure Verdict where
  label : String
  confidence : String
  explanation : String
deriving DecidableEq

/-- Line 82: resolved domains of the extracted URLs. -/
def domainsOf (tldx : String → Option (String × String)) (t : String) :
    List String :=
  (extract_urls t).map (get_registered_domain tldx)

/-- Line 83: `[d for d in domains if d in SAFE_DOMAINS]`. -/
def safeHits (W : List String) (tldx : String → Option (String × String))
    (t : String) : List String :=
  (domainsOf tldx t).filter (fun d => decide (d ∈ W))

/-- Line 84: `[d for d in domains if d not in SAFE_DOMAINS]`. -/
def nonSafeHits (W : List String) (tldx : String → Option (String × String))
    (t : String) : List String :=
  (domainsOf tldx t).filter (fun d => decide (d ∉ W))

/-- Lines 95–99: the guarded similarity computation; a failing `sim`
call (`none`) yields score 0. -/
def simScore (sim : String → String → Option ℚ) (t : String) : ℚ :=
  (sim t (simInput t (extract_urls t))).getD 0

/-- Python's binary `max`: the second argument wins only when strictly
greater. -/
def pyMax (a b : ℚ) : ℚ := if a < b then b else a

/-- Lines 105–113: fuse the keyword hits and the similarity score into
(label, confidence). -/
def fuse (hits : List String) (s : ℚ) : String × String :=
  if hits ≠ [] ∧ s > 0.4 then
    ("🚨 Phishing Email", pct (pyMax s 0.8 * 100))
  else if hits ≠ [] ∨ s > 0.6 then
    ("⚠️ Suspicious Email", pct (pyMax s 0.6 * 100))
  else
    ("✅ Legitimate Email", pct ((1 - s) * 100))

/-- `analyze_email` (lines 75–116).  `W` is the whitelist contents,
`tldx` models `tldextract.extract` and `sim` the whole guarded
embedding/cosine computation of lines 96–97 (`none` = the `try` block
raises, giving score 0). -/
def analyze_email (W : List String) (tldx : String → Option (String × String))
    (sim : String → String → Option ℚ) (email : Option String) : Verdict :=
  let email_text := clean_text email
  if email_text = "" then
    ⟨"⚠️ No text provided.", "0%", "Please paste the email content."⟩
  else
    let urls := extract_urls email_text
    let safe_hits := safeHits W tldx email_text
    let non_safe_hits := nonSafeHits W tldx email_text
    if urls ≠ [] ∧ safe_hits ≠ [] ∧ non_safe_hits = [] then
      ⟨"✅ Safe Email", "99%",
        "All domains are whitelisted: " ++ ", ".intercalate safe_hits⟩
    else
      let urlLines :=
        if urls ≠ [] then
          ["🔗 URLs found: " ++ ", ".intercalate urls] ++
            (if non_safe_hits ≠ [] then
              ["⚠️ Non-whitelisted domains: " ++ ", ".intercalate non_safe_hits]
            else [])
        else ["📄 No URLs detected."]
      let cosine_score := simScore sim email_text
      let hits := matchKeywords email_text
      let keywordLines :=
        if hits ≠ [] then ["⚠️ Suspicious keywords: " ++ ", ".intercalate hits]
        else []
      let lc := fuse hits cosine_score
      let allLines := urlLines ++ keywordLines ++
        ["Semantic similarity score: " ++ fmt2 cosine_score]
      ⟨lc.1, lc.2, "\n".intercalate allLines⟩

/-! ### Helper lemmas -/

theorem strLower_data (s : String) : (strLower s).data = s.data.map pyLower := rfl

theorem strLower_ne_empty {s : String} (h : s ≠ "") : strLower s ≠ "" := by
  intro hc
  apply h
  have hd : s.data.map pyLower = [] := congrArg String.data hc
  have : s.data = [] := List.map_eq_nil_iff.mp hd
  cases s with
  | mk l => cases this; rfl

theorem data_append (a b : String) : (a ++ b).data = a.data ++ b.data := rfl

theorem leadsWith_iff (n : List Char) :
    ∀ h : List Char, leadsWith n h = true ↔ ∃ r, h = n ++ r := by
  induction n with
  | nil =>
    intro h
    simp [leadsWith]
  | cons a as ih =>
    intro h
    cases h with
    | nil => simp [leadsWith]
    | cons b bs =>
      simp only [leadsWith, Bool.and_eq_true, decide_eq_true_eq, ih bs,
        List.cons_append, List.cons.injEq]
      constructor
      · rintro ⟨rfl, r, rfl⟩
        exact ⟨r, rfl, rfl⟩
      · rintro ⟨r, rfl, rfl⟩
        exact ⟨rfl, r, rfl⟩

theorem hasSub_iff (n : List Char) :
    ∀ h : List Char, hasSub n h = true ↔ ∃ l r, h = l ++ n ++ r := by
  intro h
  induction h with
  | nil =>
    simp only [hasSub, leadsWith_iff]
    constructor
    · rintro ⟨r, hr⟩
      exact ⟨[], r, by simpa using hr⟩
    · rintro ⟨l, r, hr⟩
      have := hr.symm
      rw [List.append_assoc] at this
      rcases List.append_eq_nil.mp this with ⟨hl, hnr⟩
      rcases List.append_eq_nil.mp hnr with ⟨hn, hr0⟩
      exact ⟨r, by simp [hn, hr0]⟩
  | cons c t ih =>
    simp only [hasSub, Bool.or_eq_true, leadsWith_iff, ih]
    constructor
    · rintro (⟨r, hr⟩ | ⟨l, r, hr⟩)
      · exact ⟨[], r, by simpa using hr⟩
      · exact ⟨c :: l, r, by simp [hr]⟩
    · rintro ⟨l, r, hr⟩
      cases l with
      | nil => exact Or.inl ⟨r, by simpa using hr⟩
      | cons x xs =>
        simp only [List.cons_append, List.cons.injEq] at hr
        exact Or.inr ⟨xs, r, hr.2⟩

/-! ### C9: keyword matcher -/

/-- C9: for every normalized text the keyword matcher returns exactly
the vocabulary entries occurring as substrings of the text, in
vocabulary order (it is a sublist of the fixed 20-entry vocabulary);
in particular a message with "password" before "urgent" still lists
"urgent" first. -/
theorem matchKeywords_spec (t : String) :
    List.Sublist (matchKeywords t) SUSPICIOUS_KEYWORDS ∧
    (∀ k, k ∈ matchKeywords t ↔
      k ∈ SUSPICIOUS_KEYWORDS ∧ ∃ l r, t.data = l ++ k.data ++ r) ∧
    matchKeywords "your password is here act urgent now" =
      ["urgent", "password"] := by
  refine ⟨List.filter_sublist _, ?_, by decide⟩
  intro k
  rw [matchKeywords, List.mem_filter, hasSub_iff]

/-! ### C6: empty and null input -/

/-- C6 (amended): for the empty-string input and the null (non-string)
input, `analyze_email` terminates at the empty check with confidence
"0%", label "⚠️ No text provided." and explanation "Please paste the
email content." — independently of the whitelist, the domain resolver
and the similarity scorer (so URL extraction, keyword matching and
similarity scoring never influence it), and without any failure.  The
sentence "No text provided." is carried by the label field, not the
explanation field. -/
theorem analyze_empty_input (W : List String)
    (tldx : String → Option (String × String))
    (sim : String → String → Option ℚ) :
    analyze_email W tldx sim (some "") =
      ⟨"⚠️ No text provided.", "0%", "Please paste the email content."⟩ ∧
    analyze_email W tldx sim none =
      ⟨"⚠️ No text provided.", "0%", "Please paste the email content."⟩ :=
  ⟨rfl, rfl⟩

/-- C6, counterexample to the claim as stated: the explanation field of
the empty-input verdict is "Please paste the email content.", not
"No text provided. Please paste the email content." (that sentence is
the label). -/
theorem analyze_empty_explanation_counterexample :
    (analyze_email SAFE_DEFAULT (fun _ => none) (fun _ _ => none)
        (some "")).explanation = "Please paste the email content." ∧
    (analyze_email SAFE_DEFAULT (fun _ => none) (fun _ _ => none)
        none).explanation = "Please paste the email content." ∧
    ("Please paste the email content." : String) ≠
      "No text provided. Please paste the email content." :=
  ⟨rfl, rfl, by decide⟩

/-! ### C3: registered-domain resolution -/

/-- C3 (amended): `get_registered_domain` is total; when parsing
returns non-empty domain and suffix components it returns their
lowercase dot-joined concatenation; on a usable-pair failure (empty
domain or suffix) it returns the lowercased input URL unchanged; but
on a parsing exception it returns the empty string, so an empty result
can also arise from non-empty input.  When parsing does not raise, the
result is empty only for empty input. -/
theorem get_registered_domain_spec
    (tldx : String → Option (String × String)) (url : String) :
    (∀ d sfx, tldx url = some (d, sfx) → d ≠ "" → sfx ≠ "" →
      get_registered_domain tldx url = strLower (d ++ "." ++ sfx)) ∧
    (∀ d sfx, tldx url = some (d, sfx) → (d = "" ∨ sfx = "") →
      get_registered_domain tldx url = strLower url) ∧
    (tldx url = none → get_registered_domain tldx url = "") ∧
    ((tldx url).isSome = true → url ≠ "" →
      get_registered_domain tldx url ≠ "") := by
  refine ⟨?_, ?_, ?_, ?_⟩
  · intro d sfx h hd hs
    simp [get_registered_domain, h, hd, hs]
  · intro d sfx h hds
    rcases hds with hd | hs
    · simp [get_registered_domain, h, hd]
    · simp [get_registered_domain, h, hs]
  · intro h
    simp [get_registered_domain, h]
  · intro hsome hurl
    rcases ho : tldx url with _ | ⟨d, sfx⟩
    · rw [ho] at hsome; simp at hsome
    · by_cases hd : d = ""
      · simp only [get_registered_domain, ho, hd]
        simpa using strLower_ne_empty hurl
      · by_cases hs : sfx = ""
        · simp only [get_registered_domain, ho, hs]
          simpa [hd] using strLower_ne_empty hurl
        · simp only [get_registered_domain, ho, if_pos (And.intro hd hs)]
          apply strLower_ne_empty
          intro hc
          have : (d ++ "." ++ sfx).data = [] := congrArg String.data hc
          simp [data_append] at this

/-- C3, witness: a concrete successful parse. -/
theorem get_registered_domain_spec_witness :
    (some (("gmail" : String), ("com" : String)) =
      some (("gmail" : String), ("com" : String))) ∧
    get_registered_domain (fun _ => some ("gmail", "com"))
      "https://x.gmail.com/a" = strLower ("gmail" ++ "." ++ "com") :=
  ⟨rfl, (get_registered_domain_spec (fun _ => some ("gmail", "com"))
    "https://x.gmail.com/a").1 "gmail" "com" rfl (by decide) (by decide)⟩

/-- C3, counterexample to the claim as stated: when parsing raises (the
`except` branch), the result is the empty string, not the lowercased
input URL. -/
theorem get_registered_domain_exception_counterexample :
    get_registered_domain (fun _ => none) "phish.example" = "" ∧
    strLower "phish.example" = "phish.example" ∧
    ("" : String) ≠ "phish.example" :=
  ⟨rfl, by decide, by decide⟩

/-! ### C7: similarity failure fallback -/

/-- C7: if the guarded embedding/cosine computation fails, the decision
engine proceeds with similarity score 0 and the invocation still
produces a complete verdict: the result is identical to a run whose
scorer returns 0. -/
theorem analyze_sim_failure (W : List String)
    (tldx : String → Option (String × String))
    (sim : String → String → Option ℚ) (email : Option String)
    (h : sim (clean_text email)
      (simInput (clean_text email) (extract_urls (clean_text email))) = none) :
    analyze_email W tldx sim email =
      analyze_email W tldx (fun _ _ => some 0) email := by
  unfold analyze_email
  by_cases ht : clean_text email = ""
  · simp [ht]
  · simp only [if_neg ht, simScore, h, Option.getD_none, Option.getD_some]

/-- C7, witness: a concrete failing scorer. -/
theorem analyze_sim_failure_witness :
    ((fun (_ _ : String) => (none : Option ℚ)) (clean_text (some "hello"))
      (simInput (clean_text (some "hello"))
        (extract_urls (clean_text (some "hello")))) = none) ∧
    analyze_email SAFE_DEFAULT (fun _ => none) (fun _ _ => none)
        (some "hello") =
      analyze_email SAFE_DEFAULT (fun _ => none) (fun _ _ => some 0)
        (some "hello") :=
  ⟨rfl, analyze_sim_failure SAFE_DEFAULT (fun _ => none) (fun _ _ => none)
    (some "hello") rfl⟩

/-! ### The fusion step -/

theorem pyMax_eq_max (a b : ℚ) : pyMax a b = max a b := by
  rcases le_or_lt b a with h | h
  · rw [pyMax, if_neg (not_lt.mpr h), max_eq_left h]
  · rw [pyMax, if_pos h, max_eq_right h.le]

theorem pyInt_eq_floor {q : ℚ} (hq : 0 ≤ q) : pyInt q = ⌊q⌋ := by
  rw [Rat.floor_def]
  exact Int.tdiv_eq_ediv (Rat.num_nonneg.mpr hq) (Int.natCast_nonneg _)

/-- When the short-circuits did not fire, the verdict's label and
confidence are exactly those of `fuse` on the keyword hits and the
similarity score. -/
theorem analyze_fusion (W : List String)
    (tldx : String → Option (String × String))
    (sim : String → String → Option ℚ) (email : Option String)
    (ht : clean_text email ≠ "")
    (hnsc : ¬(extract_urls (clean_text email) ≠ [] ∧
      safeHits W tldx (clean_text email) ≠ [] ∧
      nonSafeHits W tldx (clean_text email) = [])) :
    (analyze_email W tldx sim email).label =
      (fuse (matchKeywords (clean_text email))
        (simScore sim (clean_text email))).1 ∧
    (analyze_email W tldx sim email).confidence =
      (fuse (matchKeywords (clean_text email))
        (simScore sim (clean_text email))).2 := by
  refine ⟨?_, ?_⟩ <;>
    · unfold analyze_email
      simp only [if_neg ht, if_neg hnsc]

theorem fuse_confidence_eq_floor (hits : List String) (s : ℚ) :
    (fuse hits s).2 =
      if hits ≠ [] ∧ s > 0.4 then toString ⌊max s 0.8 * 100⌋ ++ "%"
      else if hits ≠ [] ∨ s > 0.6 then toString ⌊max s 0.6 * 100⌋ ++ "%"
      else toString ⌊(1 - s) * 100⌋ ++ "%" := by
  by_cases h1 : hits ≠ [] ∧ s > 0.4
  · simp only [fuse, pct, if_pos h1, pyMax_eq_max]
    rw [pyInt_eq_floor]
    exact mul_nonneg (le_trans (by norm_num) (le_max_right s 0.8)) (by norm_num)
  · by_cases h2 : hits ≠ [] ∨ s > 0.6
    · simp only [fuse, pct, if_neg h1, if_pos h2, pyMax_eq_max]
      rw [pyInt_eq_floor]
      exact mul_nonneg (le_trans (by norm_num) (le_max_right s 0.6)) (by norm_num)
    · simp only [fuse, pct, if_neg h1, if_neg h2]
      rw [pyInt_eq_floor]
      have hs6 : s ≤ 0.6 := not_lt.mp (fun hlt => h2 (Or.inr hlt))
      have : s ≤ 1 := le_trans hs6 (by norm_num)
      exact mul_nonneg (by linarith) (by norm_num)

/-! ### C4: confidence formulas of the fusion step -/

/-- C4: in the signal-fusion step (empty check and whitelist
short-circuit did not terminate), the confidence is the integer percent
rendering of: Phishing → floor(max(s, 0.8)·100); Suspicious →
floor(max(s, 0.6)·100); Legitimate → floor((1-s)·100). -/
theorem analyze_confidence_formula (W : List String)
    (tldx : String → Option (String × String))
    (sim : String → String → Option ℚ) (email : Option String)
    (ht : clean_text email ≠ "")
    (hnsc : ¬(extract_urls (clean_text email) ≠ [] ∧
      safeHits W tldx (clean_text email) ≠ [] ∧
      nonSafeHits W tldx (clean_text email) = [])) :
    (analyze_email W tldx sim email).confidence =
      (if matchKeywords (clean_text email) ≠ [] ∧
          simScore sim (clean_text email) > 0.4 then
        toString ⌊max (simScore sim (clean_text email)) 0.8 * 100⌋ ++ "%"
      else if matchKeywords (clean_text email) ≠ [] ∨
          simScore sim (clean_text email) > 0.6 then
        toString ⌊max (simScore sim (clean_text email)) 0.6 * 100⌋ ++ "%"
      else
        toString ⌊(1 - simScore sim (clean_text email)) * 100⌋ ++ "%") :=
  ((analyze_fusion W tldx sim email ht hnsc).2).trans
    (fuse_confidence_eq_floor _ _)

/-- C4, witness: the Phishing branch at score 0.5 with one keyword. -/
theorem analyze_confidence_formula_witness :
    (clean_text (some "urgent news") ≠ "") ∧
    (¬(extract_urls (clean_text (some "urgent news")) ≠ [] ∧
      safeHits SAFE_DEFAULT (fun _ => none) (clean_text (some "urgent news")) ≠ [] ∧
      nonSafeHits SAFE_DEFAULT (fun _ => none)
        (clean_text (some "urgent news")) = [])) ∧
    (analyze_email SAFE_DEFAULT (fun _ => none) (fun _ _ => some 0.5)
        (some "urgent news")).confidence =
      (if matchKeywords (clean_text (some "urgent news")) ≠ [] ∧
          simScore (fun _ _ => some 0.5) (clean_text (some "urgent news")) > 0.4 then
        toString ⌊max (simScore (fun _ _ => some 0.5)
          (clean_text (some "urgent news"))) 0.8 * 100⌋ ++ "%"
      else if matchKeywords (clean_text (some "urgent news")) ≠ [] ∨
          simScore (fun _ _ => some 0.5) (clean_text (some "urgent news")) > 0.6 then
        toString ⌊max (simScore (fun _ _ => some 0.5)
          (clean_text (some "urgent news"))) 0.6 * 100⌋ ++ "%"
      else
        toString ⌊(1 - simScore (fun _ _ => some 0.5)
          (clean_text (some "urgent news"))) * 100⌋ ++ "%") :=
  ⟨by decide, by decide,
    analyze_confidence_formula SAFE_DEFAULT (fun _ => none) (fun _ _ => some 0.5)
      (some "urgent news") (by decide) (by decide)⟩

/-! ### C1: whitelist short-circuit -/

/-- C1: if the cleaned text yields at least one URL and every resolved
domain is whitelisted, the verdict is the Safe-Email one with
confidence "99%" and an explanation listing the whitelisted domains;
the result does not depend on the similarity scorer (and mentions no
keyword signal), as the short-circuit returns before both. -/
theorem analyze_whitelist_shortcircuit (W : List String)
    (tldx : String → Option (String × String))
    (sim : String → String → Option ℚ) (email : Option String)
    (hu : extract_urls (clean_text email) ≠ [])
    (hall : ∀ d ∈ domainsOf tldx (clean_text email), d ∈ W) :
    analyze_email W tldx sim email =
      ⟨"✅ Safe Email", "99%", "All domains are whitelisted: " ++
        ", ".intercalate (domainsOf tldx (clean_text email))⟩ ∧
    (∀ sim2, analyze_email W tldx sim2 email =
      analyze_email W tldx sim email) := by
  have ht : clean_text email ≠ "" := by
    intro hc
    rw [hc] at hu
    exact hu rfl
  have hsafe : safeHits W tldx (clean_text email) =
      domainsOf tldx (clean_text email) := by
    unfold safeHits
    rw [List.filter_eq_self]
    intro a ha
    exact decide_eq_true (hall a ha)
  have hnons : nonSafeHits W tldx (clean_text email) = [] := by
    unfold nonSafeHits
    rw [List.filter_eq_nil_iff]
    intro a ha
    simp [hall a ha]
  have hcond : extract_urls (clean_text email) ≠ [] ∧
      safeHits W tldx (clean_text email) ≠ [] ∧
      nonSafeHits W tldx (clean_text email) = [] := by
    refine ⟨hu, ?_, hnons⟩
    rw [hsafe]
    intro hmap
    exact hu (List.map_eq_nil_iff.mp hmap)
  have key : ∀ sim2 : String → String → Option ℚ,
      analyze_email W tldx sim2 email =
        ⟨"✅ Safe Email", "99%", "All domains are whitelisted: " ++
          ", ".intercalate (domainsOf tldx (clean_text email))⟩ := by
    intro sim2
    unfold analyze_email
    simp only [if_neg ht]
    rw [if_pos hcond, hsafe]
  exact ⟨key sim, fun sim2 => (key sim2).trans (key sim).symm⟩

/-- C1, witness: the spec's own test message with `gmail.com`
whitelisted, and a scorer that would otherwise scream phishing. -/
theorem analyze_whitelist_shortcircuit_witness :
    extract_urls (clean_text (some "visit https://mail.gmail.com/inbox")) ≠ [] ∧
    (∀ d ∈ domainsOf
        (fun u => if u = "https://mail.gmail.com/inbox" then
          some ("gmail", "com") else none)
        (clean_text (some "visit https://mail.gmail.com/inbox")),
      d ∈ SAFE_DEFAULT) ∧
    analyze_email SAFE_DEFAULT
        (fun u => if u = "https://mail.gmail.com/inbox" then
          some ("gmail", "com") else none)
        (fun _ _ => some 1) (some "visit https://mail.gmail.com/inbox") =
      ⟨"✅ Safe Email", "99%", "All domains are whitelisted: gmail.com"⟩ := by
  refine ⟨by decide, by decide, ?_⟩
  exact ((analyze_whitelist_shortcircuit SAFE_DEFAULT
    (fun u => if u = "https://mail.gmail.com/inbox" then
      some ("gmail", "com") else none)
    (fun _ _ => some 1) (some "visit https://mail.gmail.com/inbox")
    (by decide) (by decide)).1).trans (by decide)

/-! ### C2: URL-less self-similarity -/

theorem pct_100 : pct 100 = "100%" := rfl

/-- C2: for a non-empty cleaned text with no URLs, when the guarded
similarity call succeeds with self-similarity 1, the verdict is never
Legitimate: it is Phishing with confidence "100%" when at least one
keyword hits, and Suspicious with confidence "100%" otherwise. -/
theorem analyze_urlless_selfsim (W : List String)
    (tldx : String → Option (String × String))
    (sim : String → String → Option ℚ) (email : Option String)
    (ht : clean_text email ≠ "")
    (hu : extract_urls (clean_text email) = [])
    (hs : sim (clean_text email) (clean_text email) = some 1) :
    (analyze_email W tldx sim email).label ≠ "✅ Legitimate Email" ∧
    (matchKeywords (clean_text email) ≠ [] →
      (analyze_email W tldx sim email).label = "🚨 Phishing Email" ∧
      (analyze_email W tldx sim email).confidence = "100%") ∧
    (matchKeywords (clean_text email) = [] →
      (analyze_email W tldx sim email).label = "⚠️ Suspicious Email" ∧
      (analyze_email W tldx sim email).confidence = "100%") := by
  have hnsc : ¬(extract_urls (clean_text email) ≠ [] ∧
      safeHits W tldx (clean_text email) ≠ [] ∧
      nonSafeHits W tldx (clean_text email) = []) := by
    rintro ⟨h1, -, -⟩
    exact h1 hu
  obtain ⟨hlab, hconf⟩ := analyze_fusion W tldx sim email ht hnsc
  have hscore : simScore sim (clean_text email) = 1 := by
    unfold simScore
    rw [hu]
    simp [simInput, hs]
  rw [hscore] at hlab hconf
  by_cases hk : matchKeywords (clean_text email) = []
  · have hfuse : fuse (matchKeywords (clean_text email)) 1 =
        ("⚠️ Suspicious Email", pct (pyMax 1 0.6 * 100)) := by
      rw [fuse, if_neg (by simp [hk]), if_pos (Or.inr (by norm_num))]
    have hval : pct (pyMax (1 : ℚ) 0.6 * 100) = "100%" := by
      rw [pyMax, if_neg (by norm_num), show ((1 : ℚ) * 100) = 100 by norm_num,
        pct_100]
    rw [hfuse] at hlab hconf
    refine ⟨?_, fun hne => absurd hk hne, fun _ => ⟨hlab, hconf.trans hval⟩⟩
    rw [hlab]
    decide
  · have hfuse : fuse (matchKeywords (clean_text email)) 1 =
        ("🚨 Phishing Email", pct (pyMax 1 0.8 * 100)) := by
      rw [fuse, if_pos ⟨hk, by norm_num⟩]
    have hval : pct (pyMax (1 : ℚ) 0.8 * 100) = "100%" := by
      rw [pyMax, if_neg (by norm_num), show ((1 : ℚ) * 100) = 100 by norm_num,
        pct_100]
    rw [hfuse] at hlab hconf
    refine ⟨?_, fun _ => ⟨hlab, hconf.trans hval⟩, fun heq => absurd heq hk⟩
    rw [hlab]
    decide

/-- C2, witness: a keyword-free, URL-free message with a succeeding
self-similarity of 1 comes out Suspicious at "100%". -/
theorem analyze_urlless_selfsim_witness :
    (clean_text (some "hello there") ≠ "") ∧
    (extract_urls (clean_text (some "hello there")) = []) ∧
    ((fun a b : String => if a = b then some (1 : ℚ) else none)
      (clean_text (some "hello there")) (clean_text (some "hello there")) =
        some 1) ∧
    (analyze_email SAFE_DEFAULT (fun _ => none)
      (fun a b => if a = b then some 1 else none)
      (some "hello there")).label = "⚠️ Suspicious Email" ∧
    (analyze_email SAFE_DEFAULT (fun _ => none)
      (fun a b => if a = b then some 1 else none)
      (some "hello there")).confidence = "100%" := by
  refine ⟨by decide, by decide, by simp, ?_, ?_⟩
  all_goals
    have h := (analyze_urlless_selfsim SAFE_DEFAULT (fun _ => none)
      (fun a b => if a = b then some 1 else none) (some "hello there")
      (by decide) (by decide) (by simp)).2.2 (by decide)
  · exact h.1
  · exact h.2

/-! ### C5: strict threshold boundaries -/

/-- C5: the fusion thresholds are strict: with keyword hits and a score
of exactly 0.4 the verdict is Suspicious, not Phishing; with no hits
and a score of exactly 0.6 it is Legitimate, not Suspicious. -/
theorem analyze_threshold_boundary (W : List String)
    (tldx : String → Option (String × String))
    (sim : String → String → Option ℚ) (email : Option String)
    (ht : clean_text email ≠ "")
    (hnsc : ¬(extract_urls (clean_text email) ≠ [] ∧
      safeHits W tldx (clean_text email) ≠ [] ∧
      nonSafeHits W tldx (clean_text email) = [])) :
    (matchKeywords (clean_text email) ≠ [] →
      simScore sim (clean_text email) = 0.4 →
      (analyze_email W tldx sim email).label = "⚠️ Suspicious Email" ∧
      (analyze_email W tldx sim email).label ≠ "🚨 Phishing Email") ∧
    (matchKeywords (clean_text email) = [] →
      simScore sim (clean_text email) = 0.6 →
      (analyze_email W tldx sim email).label = "✅ Legitimate Email" ∧
      (analyze_email W tldx sim email).label ≠ "⚠️ Suspicious Email") := by
  obtain ⟨hlab, -⟩ := analyze_fusion W tldx sim email ht hnsc
  constructor
  · intro hk hs
    rw [hs] at hlab
    have hfuse : fuse (matchKeywords (clean_text email)) 0.4 =
        ("⚠️ Suspicious Email", pct (pyMax 0.4 0.6 * 100)) := by
      rw [fuse, if_neg (fun h => lt_irrefl _ h.2), if_pos (Or.inl hk)]
    rw [hfuse] at hlab
    exact ⟨hlab, by rw [hlab]; decide⟩
  · intro hk hs
    rw [hs] at hlab
    have hfuse : fuse (matchKeywords (clean_text email)) 0.6 =
        ("✅ Legitimate Email", pct ((1 - 0.6) * 100)) := by
      rw [fuse, if_neg (fun h => h.1 hk),
        if_neg (fun h => h.elim (fun hne => hne hk) (fun hlt => lt_irrefl _ hlt))]
    rw [hfuse] at hlab
    exact ⟨hlab, by rw [hlab]; decide⟩

/-- C5, witness: one keyword and a score of exactly 0.4. -/
theorem analyze_threshold_boundary_witness :
    (clean_text (some "urgent news") ≠ "") ∧
    (¬(extract_urls (clean_text (some "urgent news")) ≠ [] ∧
      safeHits SAFE_DEFAULT (fun _ => none) (clean_text (some "urgent news")) ≠ [] ∧
      nonSafeHits SAFE_DEFAULT (fun _ => none)
        (clean_text (some "urgent news")) = [])) ∧
    (matchKeywords (clean_text (some "urgent news")) ≠ []) ∧
    (simScore (fun _ _ => some 0.4) (clean_text (some "urgent news")) = 0.4) ∧
    (analyze_email SAFE_DEFAULT (fun _ => none) (fun _ _ => some 0.4)
      (some "urgent news")).label = "⚠️ Suspicious Email" :=
  ⟨by decide, by decide, by decide, rfl,
    ((analyze_threshold_boundary SAFE_DEFAULT (fun _ => none)
      (fun _ _ => some 0.4) (some "urgent news") (by decide) (by decide)).1
      (by decide) rfl).1⟩

/-! ### C8: confidence range -/

theorem fuse_confidence_bound (hits : List String) (s : ℚ)
    (h0 : 0 ≤ s) (h1 : s ≤ 1) :
    ∃ n : ℤ, 0 ≤ n ∧ n ≤ 100 ∧ (fuse hits s).2 = toString n ++ "%" := by
  rw [fuse_confidence_eq_floor]
  by_cases hb1 : hits ≠ [] ∧ s > 0.4
  · refine ⟨⌊max s 0.8 * 100⌋, ?_, ?_, by rw [if_pos hb1]⟩
    · exact Int.floor_nonneg.mpr
        (mul_nonneg (le_trans (by norm_num) (le_max_right s 0.8)) (by norm_num))
    · rw [Int.floor_le_iff]
      have hm : max s 0.8 ≤ 1 := max_le h1 (by norm_num)
      have := mul_le_mul_of_nonneg_right hm (by norm_num : (0 : ℚ) ≤ 100)
      push_cast
      linarith
  · by_cases hb2 : hits ≠ [] ∨ s > 0.6
    · refine ⟨⌊max s 0.6 * 100⌋, ?_, ?_, by rw [if_neg hb1, if_pos hb2]⟩
      · exact Int.floor_nonneg.mpr
          (mul_nonneg (le_trans (by norm_num) (le_max_right s 0.6)) (by norm_num))
      · rw [Int.floor_le_iff]
        have hm : max s 0.6 ≤ 1 := max_le h1 (by norm_num)
        have := mul_le_mul_of_nonneg_right hm (by norm_num : (0 : ℚ) ≤ 100)
        push_cast
        linarith
    · refine ⟨⌊(1 - s) * 100⌋, ?_, ?_, by rw [if_neg hb1, if_neg hb2]⟩
      · exact Int.floor_nonneg.mpr (mul_nonneg (by linarith) (by norm_num))
      · rw [Int.floor_le_iff]
        push_cast
        nlinarith

/-- C8 (amended): whenever the similarity score lies in [0,1] — the
practical range the specification assigns to it — the confidence of
the verdict is an integer percentage between 0 and 100 (this covers
the "0%" empty verdict, the "99%" whitelist verdict and all three
fusion branches); a negative cosine score can exceed the range, see
the counterexample. -/
theorem analyze_confidence_in_range (W : List String)
    (tldx : String → Option (String × String))
    (sim : String → String → Option ℚ) (email : Option String)
    (h0 : 0 ≤ simScore sim (clean_text email))
    (h1 : simScore sim (clean_text email) ≤ 1) :
    ∃ n : ℤ, 0 ≤ n ∧ n ≤ 100 ∧
      (analyze_email W tldx sim email).confidence = toString n ++ "%" := by
  by_cases ht : clean_text email = ""
  · refine ⟨0, by norm_num, by norm_num, ?_⟩
    unfold analyze_email
    rw [if_pos ht]
    decide
  · by_cases hsc : extract_urls (clean_text email) ≠ [] ∧
        safeHits W tldx (clean_text email) ≠ [] ∧
        nonSafeHits W tldx (clean_text email) = []
    · refine ⟨99, by norm_num, by norm_num, ?_⟩
      unfold analyze_email
      simp only [if_neg ht]
      rw [if_pos hsc]
      show "99%" = toString (99 : ℤ) ++ "%"
      decide
    · obtain ⟨-, hconf⟩ := analyze_fusion W tldx sim email ht hsc
      obtain ⟨n, hn0, hn1, he⟩ :=
        fuse_confidence_bound (matchKeywords (clean_text email))
          (simScore sim (clean_text email)) h0 h1
      exact ⟨n, hn0, hn1, hconf.trans he⟩

/-- C8, witness: score 0.5 on a URL-free, keyword-free message. -/
theorem analyze_confidence_in_range_witness :
    (0 ≤ simScore (fun _ _ => some 0.5) (clean_text (some "hello there"))) ∧
    (simScore (fun _ _ => some 0.5) (clean_text (some "hello there")) ≤ 1) ∧
    ∃ n : ℤ, 0 ≤ n ∧ n ≤ 100 ∧
      (analyze_email SAFE_DEFAULT (fun _ => none) (fun _ _ => some 0.5)
        (some "hello there")).confidence = toString n ++ "%" :=
  ⟨by norm_num [simScore], by norm_num [simScore],
    analyze_confidence_in_range SAFE_DEFAULT (fun _ => none)
      (fun _ _ => some 0.5) (some "hello there")
      (by norm_num [simScore]) (by norm_num [simScore])⟩

/-- C8, counterexample to the claim as stated: a cosine score of −1
(allowed by the claim's own theoretical range) on a URL-bearing,
non-whitelisted, keyword-free message lands in the Legitimate branch
and produces confidence "200%", whose integer value 200 is outside
[0,100]. -/
theorem analyze_confidence_counterexample :
    (analyze_email SAFE_DEFAULT (fun _ => some ("example", "org"))
        (fun _ _ => some (-1)) (some "see www.example.org")).confidence =
      "200%" ∧
    pyInt ((1 - (-1 : ℚ)) * 100) = 200 ∧ ¬((200 : ℤ) ≤ 100) :=
  ⟨by with_unfolding_all decide, by with_unfolding_all decide, by decide⟩

/-! ### C10: text normalization -/

theorem pyLower_pairs : ∀ p ∈ upperPairs, pyLower p.2 = p.2 ∧
    allowedChar p.2 = true := by decide

theorem pyLower_eq_or (c : Char) :
    pyLower c = c ∨ ∃ p ∈ upperPairs, pyLower c = p.2 := by
  unfold pyLower
  cases h : upperPairs.find? (fun p => p.1 = c) with
  | none => left; rfl
  | some p =>
    right
    exact ⟨p, List.mem_of_find?_eq_some h, rfl⟩

theorem pyLower_idem (c : Char) : pyLower (pyLower c) = pyLower c := by
  rcases pyLower_eq_or c with h | ⟨p, hp, h⟩
  · rw [h]
    exact h
  · rw [h]
    exact (pyLower_pairs p hp).1

theorem pyLower_allowed {c : Char} (hc : allowedChar c = true) :
    allowedChar (pyLower c) = true := by
  rcases pyLower_eq_or c with h | ⟨p, hp, h⟩
  · rw [h]
    exact hc
  · rw [h]
    exact (pyLower_pairs p hp).2

theorem mem_of_mem_pyStrip {c : Char} {l : List Char} (h : c ∈ pyStrip l) :
    c ∈ l := by
  unfold pyStrip at h
  rw [List.mem_reverse] at h
  have h2 := (List.dropWhile_sublist isPySpace).mem h
  rw [List.mem_reverse] at h2
  exact (List.dropWhile_sublist isPySpace).mem h2

theorem dropWhile_head?_false {α} (p : α → Bool) (l : List α) {c : α}
    (h : (l.dropWhile p).head? = some c) : p c = false := by
  induction l with
  | nil => simp [List.dropWhile] at h
  | cons a t ih =>
    by_cases hp : p a
    · rw [List.dropWhile_cons_of_pos hp] at h
      exact ih h
    · rw [List.dropWhile_cons_of_neg hp, List.head?_cons] at h
      cases h
      simpa using hp

theorem dropWhile_getLast?_some {α} {p : α → Bool} {l : List α} {c : α}
    (h : (l.dropWhile p).getLast? = some c) : l.getLast? = some c := by
  obtain ⟨t, ht⟩ := List.dropWhile_suffix (l := l) p
  rw [← ht, List.getLast?_append, h]
  rfl

theorem pyStrip_head? {l : List Char} {c : Char}
    (h : (pyStrip l).head? = some c) : isPySpace c = false := by
  unfold pyStrip at h
  rw [List.head?_reverse] at h
  have h2 := dropWhile_getLast?_some h
  rw [List.getLast?_reverse] at h2
  exact dropWhile_head?_false isPySpace _ h2

theorem pyStrip_getLast? {l : List Char} {c : Char}
    (h : (pyStrip l).getLast? = some c) : isPySpace c = false := by
  unfold pyStrip at h
  rw [List.getLast?_reverse] at h
  exact dropWhile_head?_false isPySpace _ h

/-- C10: `clean_text` returns the empty string on non-string input; on
string input every character of the result is in the allowed class and
already lowercase (the tag stripping and character filter removed the
rest, and lowercasing is idempotent on the result), the result carries
no leading or trailing whitespace, and the concrete example shows the
HTML-like tags, the disallowed characters, the case and the outer
whitespace all removed.  As a Lean function it is pure by
construction. -/
theorem clean_text_spec :
    clean_text none = "" ∧
    (∀ s : String, ∀ c ∈ (clean_text (some s)).data,
      allowedChar c = true ∧ pyLower c = c) ∧
    (∀ s : String, ∀ c, (clean_text (some s)).data.head? = some c →
      isPySpace c = false) ∧
    (∀ s : String, ∀ c, (clean_text (some s)).data.getLast? = some c →
      isPySpace c = false) ∧
    clean_text (some "  <b>Hello</b> WORLD! <i>x</i>  ") = "hello world x" := by
  refine ⟨rfl, ?_, ?_, ?_, by decide⟩
  · intro s c hc
    have hmem := mem_of_mem_pyStrip hc
    rw [List.mem_map] at hmem
    obtain ⟨c2, hc2, rfl⟩ := hmem
    have hall : allowedChar c2 = true := (List.mem_filter.mp hc2).2
    exact ⟨pyLower_allowed hall, pyLower_idem c2⟩
  · intro s c h
    exact pyStrip_head? h
  · intro s c h
    exact pyStrip_getLast? h

/-- C10, witness: a concrete character of a concrete cleaned text. -/
theorem clean_text_spec_witness :
    ('a' ∈ (clean_text (some " Ab ")).data) ∧
    (allowedChar 'a' = true ∧ pyLower 'a' = 'a') :=
  ⟨by decide, clean_text_spec.2.1 " Ab " 'a' (by decide)⟩

end PEA
